import Mathlib

/-!
Shallow embedding of `msys2_autobuild/utils.py` and proofs about it.

Python strings are modelled as Lean `String` (or `List Char` where character
level operations are needed); Python `dict` from package names to lists of
dependency names is modelled as an association list with unique keys, first
match wins on lookup; Python exceptions (`assert`, `ValueError`,
`requests` errors) are modelled with `Except String`.
-/

namespace Msys2Autobuild

/-- Python `str.replace(" ", "")` removes every space character, which on a
character list is a filter. -/
def removeSpaces (cs : List Char) : List Char :=
  cs.filter (fun c => c != ' ')

/-- Split a character list at the first occurrence of `sep`: returns the part
before it and the part after it, or `none` when `sep` does not occur. -/
def breakAtFirst (sep : Char) : List Char → Option (List Char × List Char)
  | [] => none
  | c :: rest =>
    if c = sep then some ([], rest)
    else
      match breakAtFirst sep rest with
      | none => none
      | some (a, b) => some (c :: a, b)

/-- Python `s.split(sep)` (no maxsplit) for a one-character separator on a
character list: always returns at least one piece. -/
def splitAllChar (sep : Char) (cs : List Char) : List (List Char) :=
  cs.foldr
    (fun c acc =>
      match acc with
      | [] => [[c]]
      | g :: gs => if c = sep then [] :: g :: gs else (c :: g) :: gs)
    [[]]

/-- Python `s.split(sep, maxsplit)` for a one-character separator on a
character list: at most `maxsplit` splits are performed, each at the leftmost
remaining occurrence of `sep`. -/
def pySplit (sep : Char) : Nat → List Char → List (List Char)
  | 0, cs => [cs]
  | n + 1, cs =>
    match breakAtFirst sep cs with
    | none => [cs]
    | some (a, b) => a :: pySplit sep n b

/-- The registry type of `Config.OPTIONAL_DEPS` and of the local `res` in
`parse_optional_deps`: a Python dict from package name to list of package
names, as an association list with unique keys (lookup takes the first
match). -/
abbrev Dict := List (String × List String)

/-- Python `d[k]` where a missing key denotes the empty list (every operation
below that touches a missing key first installs `[]` for it). -/
def lookupD (d : Dict) (k : String) : List String :=
  match d with
  | [] => []
  | p :: rest => if p.1 = k then p.2 else lookupD rest k

/-- Python `k in d`. -/
def hasKey (d : Dict) (k : String) : Bool :=
  d.any (fun p => p.1 == k)

/-- Python `d.setdefault(k, []).append(v)` on a unique-key dict: append `v`
to the entry of `k`, creating the entry at the end when absent. -/
def dictAppend (d : Dict) (k : String) (v : String) : Dict :=
  match d with
  | [] => [(k, [v])]
  | p :: rest =>
    if p.1 = k then (p.1, p.2 ++ [v]) :: rest else p :: dictAppend rest k v

/-- Python `d.setdefault(k, []).extend(vs)` on a unique-key dict: append all
of `vs` to the entry of `k`, creating the entry at the end when absent. -/
def dictExtend (d : Dict) (k : String) (vs : List String) : Dict :=
  match d with
  | [] => [(k, vs)]
  | p :: rest =>
    if p.1 = k then (p.1, p.2 ++ vs) :: rest else p :: dictExtend rest k vs

/-- The loop body of `parse_optional_deps`:
`assert ":" in entry` raises `AssertionError` when the entry has no colon;
`first, second = entry.split(":", 2)` splits with maxsplit 2 and raises
`ValueError` unless that yields exactly two pieces;
`res.setdefault(first, []).append(second)` records the pair. -/
def parse_entry (res : Dict) (entry : List Char) : Except String Dict :=
  if entry.contains ':' then
    match pySplit ':' 2 entry with
    | [first, second] => .ok (dictAppend res (String.mk first) (String.mk second))
    | _ => .error "ValueError: too many values to unpack"
  else .error "AssertionError"

/-- The body of `parse_optional_deps` after the space removal: empty input
returns the empty dict, otherwise the input is split on commas and the
entries are folded through `parse_entry` starting from the empty dict. -/
def parseCore (cs : List Char) : Except String Dict :=
  if cs = [] then .ok []
  else (splitAllChar ',' cs).foldlM parse_entry []

/-- `parse_optional_deps(optional_deps)` from `utils.py`:
`optional_deps = optional_deps.replace(" ", "")`, then the empty-input check
and the comma-separated entry loop of `parseCore`. -/
def parse_optional_deps (optional_deps : String) : Except String Dict :=
  parseCore (removeSpaces optional_deps.data)

/-- `apply_optional_deps(optional_deps)` from `utils.py`, with the global
`Config.OPTIONAL_DEPS` registry passed and returned explicitly: for each
item of the parsed mapping, in insertion order,
`Config.OPTIONAL_DEPS.setdefault(dep, []).extend(ignored)`. -/
def apply_optional_deps (registry : Dict) (optional_deps : String) :
    Except String Dict :=
  (parse_optional_deps optional_deps).map
    (fun m => m.foldl (fun r p => dictExtend r p.1 p.2) registry)

/-- Python whitespace characters recognised by `str.strip()` (ASCII range). -/
def pyIsSpace (c : Char) : Bool :=
  c == ' ' || c == '\t' || c == '\n' || c == '\r' || c == '\x0b' || c == '\x0c'

/-- Python `s.strip()`: drop leading and trailing whitespace. -/
def pyStrip (s : String) : String :=
  String.mk (((s.data.dropWhile pyIsSpace).reverse.dropWhile pyIsSpace).reverse)

/-- Python `s.lower()` (ASCII letters, which covers every input of interest
here). -/
def pyLower (s : String) : String :=
  String.mk (s.data.map Char.toLower)

/-- `ask_yes_no(prompt, default_no)` from `utils.py`, with the string read by
`input()` passed explicitly as `raw`; the prompt only affects the displayed
text, never the returned value, so it is omitted.
`user_input = input(prompt).strip().lower()`; empty input returns
`False if default_no else True`; otherwise the result of
`user_input == 'y'`. -/
def ask_yes_no (raw : String) (default_no : Bool) : Bool :=
  let user_input := pyLower (pyStrip raw)
  if user_input = "" then (if default_no then false else true)
  else user_input == "y"

/-- An HTTP response as far as `queue_website_update` inspects it. -/
structure Response where
  status_code : Nat
deriving DecidableEq

/-- `requests.Response.raise_for_status()`: raises `requests.HTTPError` for
client-error and server-error status codes (400 to 599), otherwise returns
normally. -/
def raise_for_status (r : Response) : Except String Unit :=
  if 400 ≤ r.status_code ∧ r.status_code < 600 then .error "HTTPError"
  else .ok ()

/-- `queue_website_update()` from `utils.py`, with the outcome of
`session.post(...)` passed explicitly (an error models a network failure
raised by the post call itself; an ok carries the received response). The
`try` block wraps only `r.raise_for_status()`: a `requests.RequestException`
raised there is printed (returned as the log list) and swallowed, while a
failure of the post itself happens before the `try` and propagates. -/
def queue_website_update (post_result : Except String Response) :
    Except String (List String) :=
  match post_result with
  | .error e => .error e
  | .ok r =>
    match raise_for_status r with
    | .error e => .ok [e]
    | .ok _ => .ok []

/-- How a call to `get_requests_session` spells its argument. Python
`functools.cache` keys the memo table on the exact call form: omitting the
argument, passing it positionally and passing it by keyword are three
different keys even when the flag value agrees. -/
inductive CallKey where
  | noArg : CallKey
  | pos : Bool → CallKey
  | kw : Bool → CallKey
deriving DecidableEq

/-- The `nocache` value a call form denotes (the declared default is
`False`). -/
def nocacheValue : CallKey → Bool
  | .noArg => false
  | .pos b => b
  | .kw b => b

/-- The memo table of the `@cache` decorator on `get_requests_session`.
Sessions are identified by the order in which they were constructed; two
results are the identical Python object exactly when their numbers agree. -/
structure MemoState where
  table : List (CallKey × Nat)
  nextId : Nat
deriving DecidableEq

/-- The state before the first call: empty memo table. -/
def memoInit : MemoState := ⟨[], 0⟩

/-- First-match lookup in the memo table. -/
def memoLookup : List (CallKey × Nat) → CallKey → Option Nat
  | [], _ => none
  | p :: rest, k => if p.1 = k then some p.2 else memoLookup rest k

/-- One call of the `@cache`-decorated `get_requests_session`: on a hit the
memoized session is returned and nothing changes; on a miss a fresh
`requests.Session` is constructed (its adapters mounted) and recorded under
the call key. -/
def get_requests_session (s : MemoState) (k : CallKey) : Nat × MemoState :=
  match memoLookup s.table k with
  | some i => (i, s)
  | none => (s.nextId, ⟨s.table ++ [(k, s.nextId)], s.nextId + 1⟩)

/-- The global state touched by `install_requests_cache`: whether
`requests_cache.install_cache` is in effect, the ages (in seconds) of the
entries of the backing store, and the file names in the cache directory. -/
structure HttpCacheState where
  installed : Bool
  entries : List Nat
  files : List String

/-- The cache file name `f'http_cache_{requests_cache.__version__}.sqlite'`
for a given library version. -/
def http_cache_file (version : String) : String :=
  "http_cache_" ++ version ++ ".sqlite"

/-- Python `f.startswith(p)`, decided on the character lists. -/
def pyStartswith (p f : String) : Bool :=
  p.data.isPrefixOf f.data

/-- The activation part of `install_requests_cache`: every file of the cache
directory that starts with `http_cache` and is not the current cache file is
removed, then `requests_cache.install_cache(...)` is called. -/
def install_requests_cache_enter (version : String) (s : HttpCacheState) :
    HttpCacheState :=
  { s with
    files := s.files.filter
      (fun f => !(pyStartswith "http_cache" f && f != http_cache_file version)),
    installed := true }

/-- `requests_cache.get_cache()`: the installed backend, or `None`. -/
def requests_cache_get_cache (s : HttpCacheState) : Option (List Nat) :=
  if s.installed then some s.entries else none

/-- `cache.delete(older_than=timedelta(hours=3))`: drop every entry strictly
older than the cutoff (in seconds). -/
def cache_delete_older_than (cutoff : Nat) (entries : List Nat) : List Nat :=
  entries.filter (fun a => !(cutoff < a))

/-- The `finally` block of `install_requests_cache`:
`cache = requests_cache.get_cache()`, `assert cache is not None`,
`cache.delete(older_than=timedelta(hours=3))`,
`requests_cache.uninstall_cache()`. When the assert fails the remaining
lines are skipped and `AssertionError` propagates. -/
def install_requests_cache_exit (s : HttpCacheState) :
    Except String Unit × HttpCacheState :=
  match requests_cache_get_cache s with
  | none => (.error "AssertionError", s)
  | some entries =>
    (.ok (), { s with
        entries := cache_delete_older_than 10800 entries,
        installed := false })

/-- The whole `install_requests_cache` context manager around a wrapped body.
The body is an arbitrary state transformer that either finishes or raises;
its exception survives the `finally` block unless the `finally` block itself
raises. -/
def install_requests_cache (version : String)
    (body : HttpCacheState → Except String Unit × HttpCacheState)
    (s0 : HttpCacheState) : Except String Unit × HttpCacheState :=
  let s1 := install_requests_cache_enter version s0
  let br := body s1
  let fr := install_requests_cache_exit br.2
  match fr.1 with
  | .error e => (.error e, fr.2)
  | .ok _ => (br.1, fr.2)

/-- The keys of a dict are pairwise distinct, as Python guarantees for its
dicts; every operation above preserves this. -/
def keysNodup (d : Dict) : Prop :=
  (d.map Prod.fst).Nodup

/-- The invariant the `@cache` memo table maintains: distinct keys map to
distinct session objects, and every recorded session number is below the
next fresh number. -/
def MemoWF (s : MemoState) : Prop :=
  s.table.Pairwise (fun p q => p.1 ≠ q.1 ∧ p.2 ≠ q.2) ∧
  ∀ p ∈ s.table, p.2 < s.nextId

end Msys2Autobuild

deriving instance DecidableEq for Except

namespace Msys2Autobuild

theorem lookupD_dictExtend_self (d : Dict) (k : String) (vs : List String) :
    lookupD (dictExtend d k vs) k = lookupD d k ++ vs := by
  induction d with
  | nil => simp [dictExtend, lookupD]
  | cons p rest ih =>
    by_cases h : p.1 = k
    · simp [dictExtend, lookupD, h]
    · simp [dictExtend, lookupD, h, ih]

theorem lookupD_dictExtend_ne (d : Dict) (k kx : String) (vs : List String)
    (h : kx ≠ k) : lookupD (dictExtend d k vs) kx = lookupD d kx := by
  have hk : ¬ (k = kx) := fun hh => h hh.symm
  induction d with
  | nil => simp [dictExtend, lookupD, hk]
  | cons p rest ih =>
    by_cases h1 : p.1 = k
    · simp [dictExtend, lookupD, h1, hk]
    · by_cases h2 : p.1 = kx
      · simp [dictExtend, lookupD, h1, h2, h, hk]
      · simp [dictExtend, lookupD, h1, h2, ih]

theorem lookupD_eq_nil_of_not_mem_keys (d : Dict) (k : String)
    (h : k ∉ d.map Prod.fst) : lookupD d k = [] := by
  induction d with
  | nil => rfl
  | cons p rest ih =>
    simp only [List.map_cons, List.mem_cons] at h
    push_neg at h
    have hne : ¬ p.1 = k := fun hh => h.1 hh.symm
    simp [lookupD, hne, ih h.2]

theorem lookupD_eq_nil_of_hasKey_false (d : Dict) (k : String)
    (h : hasKey d k = false) : lookupD d k = [] := by
  apply lookupD_eq_nil_of_not_mem_keys
  intro hmem
  rcases List.mem_map.mp hmem with ⟨p, hp, hpk⟩
  have : d.any (fun q => q.1 == k) = true :=
    List.any_eq_true.mpr ⟨p, hp, beq_iff_eq.mpr hpk⟩
  rw [hasKey] at h
  rw [h] at this
  cases this

theorem mem_keys_dictAppend (d : Dict) (k v x : String)
    (h : x ∈ (dictAppend d k v).map Prod.fst) :
    x ∈ d.map Prod.fst ∨ x = k := by
  induction d with
  | nil =>
    right
    simpa [dictAppend] using h
  | cons p rest ih =>
    by_cases h1 : p.1 = k
    · rw [dictAppend, if_pos h1] at h
      left
      simpa using h
    · rw [dictAppend, if_neg h1, List.map_cons, List.mem_cons] at h
      rcases h with h | h
      · exact Or.inl (by simp [h])
      · rcases ih h with h2 | h2
        · exact Or.inl (List.mem_cons_of_mem _ h2)
        · exact Or.inr h2

theorem keysNodup_dictAppend (d : Dict) (k v : String) (h : keysNodup d) :
    keysNodup (dictAppend d k v) := by
  induction d with
  | nil => simp [dictAppend, keysNodup]
  | cons p rest ih =>
    rw [keysNodup, List.map_cons, List.nodup_cons] at h
    by_cases h1 : p.1 = k
    · simpa [dictAppend, h1, keysNodup, List.nodup_cons] using h
    · rw [dictAppend, if_neg h1, keysNodup, List.map_cons, List.nodup_cons]
      refine ⟨fun hmem => ?_, ih h.2⟩
      rcases mem_keys_dictAppend rest k v p.1 hmem with h2 | h2
      · exact h.1 h2
      · exact h1 h2

theorem lookupD_fold_extend (m : Dict) (reg : Dict) (k : String)
    (h : keysNodup m) :
    lookupD (m.foldl (fun r p => dictExtend r p.1 p.2) reg) k
      = lookupD reg k ++ lookupD m k := by
  induction m generalizing reg with
  | nil => simp [lookupD]
  | cons p rest ih =>
    rw [keysNodup, List.map_cons, List.nodup_cons] at h
    rw [List.foldl_cons, ih _ h.2]
    by_cases hk : p.1 = k
    · subst hk
      rw [lookupD_dictExtend_self,
        lookupD_eq_nil_of_not_mem_keys rest p.1 h.1]
      simp [lookupD]
    · rw [lookupD_dictExtend_ne _ _ _ _ (fun hh => hk hh.symm)]
      simp [lookupD, hk]

theorem parse_entry_ok_nodup {acc acc2 : Dict} {e : List Char}
    (h : parse_entry acc e = .ok acc2) (hn : keysNodup acc) :
    keysNodup acc2 := by
  unfold parse_entry at h
  split at h
  · split at h
    · cases h
      exact keysNodup_dictAppend _ _ _ hn
    · cases h
  · cases h

theorem foldlM_parse_entry_nodup :
    ∀ (l : List (List Char)) (acc : Dict), keysNodup acc →
      ∀ m, l.foldlM parse_entry acc = .ok m → keysNodup m := by
  intro l
  induction l with
  | nil =>
    intro acc h m hm
    rw [List.foldlM_nil] at hm
    cases hm
    exact h
  | cons hd tl ih =>
    intro acc h m hm
    rw [List.foldlM_cons] at hm
    cases hpe : parse_entry acc hd with
    | error e =>
      rw [hpe] at hm
      cases hm
    | ok acc2 =>
      rw [hpe] at hm
      exact ih acc2 (parse_entry_ok_nodup hpe h) m hm

theorem parse_ok_nodup {s : String} {m : Dict}
    (h : parse_optional_deps s = .ok m) : keysNodup m := by
  unfold parse_optional_deps parseCore at h
  split at h
  · cases h
    simp [keysNodup]
  · exact foldlM_parse_entry_nodup _ [] (by simp [keysNodup]) m h

theorem foldlM_parse_entry_error :
    ∀ (l : List (List Char)) (acc : Dict),
      (∃ e ∈ l, e.contains ':' = false) →
      ∃ msg, l.foldlM parse_entry acc = .error msg := by
  intro l
  induction l with
  | nil =>
    intro acc h
    rcases h with ⟨e, he, _⟩
    cases he
  | cons hd tl ih =>
    intro acc h
    rcases h with ⟨e, he, hc⟩
    rw [List.foldlM_cons]
    rcases List.mem_cons.mp he with rfl | htl
    · refine ⟨"AssertionError", ?_⟩
      have hpe : parse_entry acc e = .error "AssertionError" := by
        unfold parse_entry
        rw [hc]
        rfl
      rw [hpe]
      rfl
    · cases hpe : parse_entry acc hd with
      | error msg => exact ⟨msg, rfl⟩
      | ok acc2 =>
        rcases ih acc2 ⟨e, htl, hc⟩ with ⟨msg, hmsg⟩
        exact ⟨msg, hmsg⟩

theorem memoLookup_some_mem {t : List (CallKey × Nat)} {k : CallKey} {i : Nat}
    (h : memoLookup t k = some i) : (k, i) ∈ t := by
  induction t with
  | nil => cases h
  | cons p rest ih =>
    rw [memoLookup] at h
    split at h
    · cases h
      rename_i hpk
      rw [← hpk]
      exact List.mem_cons_self _ _
    · exact List.mem_cons_of_mem _ (ih h)

theorem memoLookup_none_forall {t : List (CallKey × Nat)} {k : CallKey}
    (h : memoLookup t k = none) : ∀ p ∈ t, p.1 ≠ k := by
  induction t with
  | nil => intro p hp; cases hp
  | cons q rest ih =>
    rw [memoLookup] at h
    split at h
    · cases h
    · intro p hp
      rcases List.mem_cons.mp hp with rfl | hp2
      · assumption
      · exact ih h p hp2

theorem memoLookup_append (t : List (CallKey × Nat)) (q : CallKey × Nat)
    (k : CallKey) :
    memoLookup (t ++ [q]) k
      = match memoLookup t k with
        | some i => some i
        | none => if q.1 = k then some q.2 else none := by
  induction t with
  | nil => simp [memoLookup]
  | cons p rest ih =>
    by_cases h : p.1 = k <;> simp [memoLookup, h, ih]

theorem version_data_within_http_cache_file (v : String) :
    v.data <:+: (http_cache_file v).data :=
  ⟨"http_cache_".data, ".sqlite".data, by
    simp [http_cache_file, String.data_append]⟩

example : parse_optional_deps "A:B" = .ok [("A", ["B"])] := rfl
example : parse_optional_deps "A:B:C" = .error "ValueError: too many values to unpack" := rfl
example : parse_optional_deps "" = .ok [] := rfl
example : parse_optional_deps "  " = .ok [] := rfl
example : parse_optional_deps "\t" = .error "AssertionError" := rfl
example : parse_optional_deps "AB" = .error "AssertionError" := rfl
example : parse_optional_deps "A:B,A:C" = .ok [("A", ["B", "C"])] := rfl
example : parse_optional_deps "A:B,D:E" = .ok [("A", ["B"]), ("D", ["E"])] := rfl
example : apply_optional_deps [("A", ["X"])] "A:B" = .ok [("A", ["X", "B"])] := rfl

example : ask_yes_no "Y" true = true := rfl
example : ask_yes_no "yes" true = false := rfl
example : ask_yes_no "n" false = false := rfl
example : ask_yes_no "no" false = false := rfl
example : ask_yes_no "" true = false := rfl
example : ask_yes_no "  " false = true := rfl
example : ask_yes_no " y " true = true := rfl

example : queue_website_update (.error "ConnectionError") = .error "ConnectionError" := rfl
example : queue_website_update (.ok ⟨500⟩) = .ok ["HTTPError"] := rfl
example : queue_website_update (.ok ⟨200⟩) = .ok [] := rfl

example :
    (get_requests_session memoInit .noArg).1 = 0 ∧
    (get_requests_session (get_requests_session memoInit .noArg).2 (.pos false)).1 = 1 := by
  constructor <;> rfl

example :
    (install_requests_cache_enter "1.0"
      ⟨false, [], ["http_cache_0.9.sqlite", "http_cache_1.0.sqlite", "other.txt"]⟩).files
      = ["http_cache_1.0.sqlite", "other.txt"] := rfl

example :
    install_requests_cache "1.0" (fun s => (.error "boom", { s with entries := s.entries ++ [99999] }))
      ⟨false, [20000, 100], []⟩
    = (.error "boom", ⟨false, [100], []⟩) := rfl

/-- **C1.** The claim (with the spec) says that `parse_optional_deps` splits
an entry such as `A:B:C` only at the first colon and returns the mapping of
`A` to the one-element list `B:C`. The code instead runs
`first, second = entry.split(":", 2)`: for an entry holding two or more
colons the split yields three pieces and the two-name unpacking raises
`ValueError`, so parsing `A:B:C` raises instead of returning a mapping.
This evaluates the embedded code at the failing input. -/
theorem C1_parse_two_colon_entry_raises :
    parse_optional_deps "A:B:C"
      = .error "ValueError: too many values to unpack" ∧
    parse_optional_deps "A:B:C" ≠ .ok [("A", ["B:C"])] := by
  exact ⟨rfl, by decide⟩

/-- **C5 counterexample.** The claim says all whitespace is stripped and any
whitespace-only input parses to the empty mapping; the code only removes
space characters, so a tab-only input reaches the assert with a colon-free
entry and raises `AssertionError` rather than returning the empty
mapping. -/
theorem C5_tab_only_input_raises :
    parse_optional_deps "\t" = .error "AssertionError" ∧
    parse_optional_deps "\t" ≠ .ok [] := by
  exact ⟨rfl, by decide⟩

/-- **C5 (amended).** Every space character (U+0020), anywhere in the input,
is removed before parsing: inserting a space at any position never changes
the result; the empty input and every input consisting only of spaces parse
to the empty mapping. Other whitespace is not removed. -/
theorem C5_parse_optional_deps_space_removal :
    (∀ u v : String,
      parse_optional_deps (u ++ " " ++ v) = parse_optional_deps (u ++ v)) ∧
    parse_optional_deps "" = .ok [] ∧
    (∀ s : String, (∀ c ∈ s.data, c = ' ') → parse_optional_deps s = .ok []) := by
  refine ⟨fun u v => ?_, rfl, fun s h => ?_⟩
  · unfold parse_optional_deps
    congr 1
    rw [String.data_append, String.data_append, String.data_append]
    have hsp : (" " : String).data = [' '] := rfl
    simp [removeSpaces, List.filter_append, hsp]
  · unfold parse_optional_deps
    have hrm : removeSpaces s.data = [] := by
      rw [removeSpaces, List.filter_eq_nil_iff]
      intro a ha
      rw [h a ha]
      simp
    rw [hrm]
    rfl

/-- **C5 witness.** The amended theorem applied at concrete inputs: a space
inserted between `A` and `:B` is immaterial, and a two-space input parses to
the empty mapping. -/
theorem C5_parse_optional_deps_space_removal_witness :
    parse_optional_deps ("A" ++ " " ++ ":B") = parse_optional_deps ("A" ++ ":B") ∧
    parse_optional_deps "  " = .ok [] :=
  ⟨C5_parse_optional_deps_space_removal.1 "A" ":B",
    C5_parse_optional_deps_space_removal.2.2 "  " (by decide)⟩

/-- **C6.** When, after space removal, the input is non-empty and some
comma-separated entry holds no colon, `parse_optional_deps` raises: the
result is an error, never a partial or empty mapping. -/
theorem C6_parse_missing_colon_errors (s : String)
    (h1 : removeSpaces s.data ≠ [])
    (h2 : ∃ e ∈ splitAllChar ',' (removeSpaces s.data),
      e.contains ':' = false) :
    ∃ msg, parse_optional_deps s = .error msg := by
  unfold parse_optional_deps parseCore
  rw [if_neg h1]
  exact foldlM_parse_entry_error _ [] h2

/-- **C6 witness.** The theorem applied to the input `AB` of the spec. -/
theorem C6_parse_missing_colon_errors_witness :
    removeSpaces "AB".data ≠ [] ∧
    (∃ e ∈ splitAllChar ',' (removeSpaces "AB".data),
      e.contains ':' = false) ∧
    ∃ msg, parse_optional_deps "AB" = .error msg :=
  ⟨by decide, by decide,
    C6_parse_missing_colon_errors "AB" (by decide) (by decide)⟩

/-- **C8.** When parsing succeeds, `apply_optional_deps` appends the parsed
values of every key onto the registry entry of that key (creating it when
absent, replacing and deduplicating nothing), and a second call with the
same input appends the same values again, so each affected entry ends with
its original length plus twice the parsed length. -/
theorem C8_apply_optional_deps_accumulates (registry : Dict) (s : String)
    (m : Dict) (h : parse_optional_deps s = .ok m) :
    ∃ reg1, apply_optional_deps registry s = .ok reg1 ∧
      (∀ k, lookupD reg1 k = lookupD registry k ++ lookupD m k) ∧
      ∃ reg2, apply_optional_deps reg1 s = .ok reg2 ∧
        ∀ k, (lookupD reg2 k).length
          = (lookupD registry k).length + 2 * (lookupD m k).length := by
  have hn := parse_ok_nodup h
  have happ : ∀ r : Dict, apply_optional_deps r s
      = .ok (m.foldl (fun d p => dictExtend d p.1 p.2) r) := by
    intro r
    rw [apply_optional_deps, h]
    rfl
  refine ⟨_, happ registry,
    fun k => lookupD_fold_extend m registry k hn, _, happ _, fun k => ?_⟩
  rw [lookupD_fold_extend m _ k hn, lookupD_fold_extend m registry k hn,
    List.length_append, List.length_append]
  omega

/-- **C8 witness.** The theorem applied to the registry holding `X` under
`A` and the input `A:B`. -/
theorem C8_apply_optional_deps_accumulates_witness :
    parse_optional_deps "A:B" = .ok [("A", ["B"])] ∧
    (∃ reg1, apply_optional_deps [("A", ["X"])] "A:B" = .ok reg1 ∧
      (∀ k, lookupD reg1 k
        = lookupD [("A", ["X"])] k ++ lookupD [("A", ["B"])] k) ∧
      ∃ reg2, apply_optional_deps reg1 "A:B" = .ok reg2 ∧
        ∀ k, (lookupD reg2 k).length
          = (lookupD [("A", ["X"])] k).length
            + 2 * (lookupD [("A", ["B"])] k).length) :=
  ⟨by decide,
    C8_apply_optional_deps_accumulates [("A", ["X"])] "A:B" [("A", ["B"])]
      (by decide)⟩

/-- **C10.** Frame property: when parsing succeeds, a registry key that does
not occur among the parsed package names keeps exactly its previous list. -/
theorem C10_apply_optional_deps_frame (registry : Dict) (s : String)
    (m : Dict) (k : String) (hp : parse_optional_deps s = .ok m)
    (hk : hasKey m k = false) :
    ∃ reg1, apply_optional_deps registry s = .ok reg1 ∧
      lookupD reg1 k = lookupD registry k := by
  have hn := parse_ok_nodup hp
  refine ⟨_, by rw [apply_optional_deps, hp]; rfl, ?_⟩
  rw [lookupD_fold_extend m registry k hn,
    lookupD_eq_nil_of_hasKey_false m k hk, List.append_nil]

/-- **C10 witness.** The theorem applied to a registry entry `Z` untouched
by parsing `A:B`. -/
theorem C10_apply_optional_deps_frame_witness :
    parse_optional_deps "A:B" = .ok [("A", ["B"])] ∧
    hasKey [("A", ["B"])] "Z" = false ∧
    ∃ reg1, apply_optional_deps [("Z", ["q"])] "A:B" = .ok reg1 ∧
      lookupD reg1 "Z" = lookupD [("Z", ["q"])] "Z" :=
  ⟨by decide, by decide,
    C10_apply_optional_deps_frame [("Z", ["q"])] "A:B" [("A", ["B"])] "Z"
      (by decide) (by decide)⟩

/-- **C2 counterexample.** The claim says any non-empty input other than the
exact lowercase `y` — among them `Y` — returns false. The code lowercases
the stripped input before comparing, so the input `Y` returns true. -/
theorem C2_uppercase_input_returns_true :
    ask_yes_no "Y" true = true ∧ ask_yes_no "Y" false = true := by
  exact ⟨rfl, rfl⟩

/-- **C2 (amended).** The input is stripped and lowercased; when the result
is empty the configured default is returned (false when `default_no`, true
otherwise), and when it is non-empty the call returns true exactly when the
stripped, lowercased input is `y` — so `yes`, `n` and `no` return false
while `Y` returns true. -/
theorem C2_ask_yes_no_spec (raw : String) (default_no : Bool) :
    (pyLower (pyStrip raw) = "" →
      ask_yes_no raw default_no = !default_no) ∧
    (pyLower (pyStrip raw) ≠ "" →
      (ask_yes_no raw default_no = true ↔ pyLower (pyStrip raw) = "y")) := by
  constructor
  · intro h
    show (if pyLower (pyStrip raw) = "" then (if default_no then false else true)
        else pyLower (pyStrip raw) == "y") = !default_no
    rw [if_pos h]
    cases default_no <;> rfl
  · intro h
    show ((if pyLower (pyStrip raw) = "" then (if default_no then false else true)
        else pyLower (pyStrip raw) == "y") = true) ↔ _
    rw [if_neg h]
    exact beq_iff_eq

/-- **C2 witness.** The amended theorem applied to the input `Y` with the
default-no prompt. -/
theorem C2_ask_yes_no_spec_witness :
    pyLower (pyStrip "Y") ≠ "" ∧
    (ask_yes_no "Y" true = true ↔ pyLower (pyStrip "Y") = "y") :=
  ⟨by decide, (C2_ask_yes_no_spec "Y" true).2 (by decide)⟩

/-- **C3 counterexample.** The claim says every failure of the outbound
request — a network failure of the post itself included — is caught and
swallowed. The `session.post(...)` call stands before the `try` block, so an
exception it raises propagates out of `queue_website_update`. -/
theorem C3_network_failure_propagates :
    queue_website_update (.error "ConnectionError")
      = .error "ConnectionError" ∧
    (queue_website_update (.error "ConnectionError")).isOk = false := by
  exact ⟨rfl, rfl⟩

/-- **C3 (amended).** Once a response is received, an error HTTP status
raised by `raise_for_status` is caught, printed and swallowed:
`queue_website_update` returns normally for every response; only a failure
of the post call itself propagates. -/
theorem C3_status_errors_swallowed (r : Response) :
    ∃ logs, queue_website_update (.ok r) = .ok logs := by
  cases h : raise_for_status r with
  | error e =>
    refine ⟨[e], ?_⟩
    show (match raise_for_status r with
      | Except.error e => Except.ok [e]
      | Except.ok _ => Except.ok []) = Except.ok [e]
    rw [h]
  | ok u =>
    refine ⟨[], ?_⟩
    show (match raise_for_status r with
      | Except.error e => Except.ok [e]
      | Except.ok _ => Except.ok []) = Except.ok []
    rw [h]

/-- **C3 witness.** The amended theorem applied to a 500 response. -/
theorem C3_status_errors_swallowed_witness :
    ∃ logs, queue_website_update (.ok ⟨500⟩) = .ok logs :=
  C3_status_errors_swallowed ⟨500⟩

/-- **C4 counterexample.** The claim says any two calls with the same
`nocache` value return the identical session. `functools.cache` keys its
table on the call form: a call omitting the argument and a call passing
`False` positionally both denote `nocache = False`, yet construct two
distinct sessions. -/
theorem C4_call_form_distinct_sessions :
    nocacheValue CallKey.noArg = nocacheValue (CallKey.pos false) ∧
    (get_requests_session (get_requests_session memoInit CallKey.noArg).2
        (CallKey.pos false)).1
      ≠ (get_requests_session memoInit CallKey.noArg).1 := by
  decide

/-- **C4 (amended).** The provider is memoized by the call form: from a
well-formed memo state, repeating a call with the same form returns the
identical session and leaves the state well-formed, while a call with any
other form — another flag value or another spelling of the same value —
returns a distinct session. At most one session exists per call form, but
the no-argument form and the explicit `False` forms are memoized
separately, so more than two sessions can exist. -/
theorem C4_get_requests_session_memoization (s : MemoState) (k kx : CallKey)
    (hwf : MemoWF s) (hne : kx ≠ k) :
    MemoWF (get_requests_session s k).2 ∧
    (get_requests_session (get_requests_session s k).2 k).1
      = (get_requests_session s k).1 ∧
    (get_requests_session (get_requests_session s k).2 kx).1
      ≠ (get_requests_session s k).1 := by
  obtain ⟨hpw, hlt⟩ := hwf
  have hsymm : Symmetric
      (fun p q : CallKey × Nat => p.1 ≠ q.1 ∧ p.2 ≠ q.2) :=
    fun p q hh => ⟨Ne.symm hh.1, Ne.symm hh.2⟩
  cases hl : memoLookup s.table k with
  | some i =>
    have hmem : (k, i) ∈ s.table := memoLookup_some_mem hl
    have hfix : get_requests_session s k = (i, s) := by
      rw [get_requests_session, hl]
    rw [hfix]
    refine ⟨⟨hpw, hlt⟩, ?_, ?_⟩
    · rw [get_requests_session, hl]
    · cases hl2 : memoLookup s.table kx with
      | some j =>
        have hmem2 : (kx, j) ∈ s.table := memoLookup_some_mem hl2
        rw [get_requests_session, hl2]
        have hR := List.Pairwise.forall hsymm hpw hmem2 hmem
          (fun hh => hne (congrArg Prod.fst hh))
        exact hR.2
      | none =>
        rw [get_requests_session, hl2]
        have := hlt (k, i) hmem
        show s.nextId ≠ i
        omega
  | none =>
    have hforall := memoLookup_none_forall hl
    have hfix : get_requests_session s k
        = (s.nextId, ⟨s.table ++ [(k, s.nextId)], s.nextId + 1⟩) := by
      rw [get_requests_session, hl]
    rw [hfix]
    refine ⟨⟨?_, ?_⟩, ?_, ?_⟩
    · rw [List.pairwise_append]
      refine ⟨hpw, List.pairwise_singleton _ _, ?_⟩
      intro p hp q hq
      rw [List.mem_singleton] at hq
      subst hq
      exact ⟨hforall p hp, Nat.ne_of_lt (hlt p hp)⟩
    · intro p hp
      rcases List.mem_append.mp hp with hin | hin
      · exact Nat.lt_succ_of_lt (hlt p hin)
      · rw [List.mem_singleton] at hin
        subst hin
        exact Nat.lt_succ_self _
    · rw [get_requests_session]
      have : memoLookup (s.table ++ [(k, s.nextId)]) k = some s.nextId := by
        rw [memoLookup_append, hl]
        simp
      rw [this]
    · rw [get_requests_session]
      have hstep : memoLookup (s.table ++ [(k, s.nextId)]) kx
          = memoLookup s.table kx := by
        rw [memoLookup_append]
        cases hl2 : memoLookup s.table kx with
        | some j => rfl
        | none =>
          rw [if_neg (fun hh : k = kx => hne hh.symm)]
      rw [hstep]
      cases hl2 : memoLookup s.table kx with
      | some j =>
        have := hlt (kx, j) (memoLookup_some_mem hl2)
        show j ≠ s.nextId
        omega
      | none =>
        show s.nextId + 1 ≠ s.nextId
        omega

/-- **C4 witness.** The amended theorem applied to the empty memo state with
the positional calls `False` and `True`. -/
theorem C4_get_requests_session_memoization_witness :
    MemoWF memoInit ∧ (CallKey.pos true ≠ CallKey.pos false) ∧
    (MemoWF (get_requests_session memoInit (CallKey.pos false)).2 ∧
      (get_requests_session
          (get_requests_session memoInit (CallKey.pos false)).2
          (CallKey.pos false)).1
        = (get_requests_session memoInit (CallKey.pos false)).1 ∧
      (get_requests_session
          (get_requests_session memoInit (CallKey.pos false)).2
          (CallKey.pos true)).1
        ≠ (get_requests_session memoInit (CallKey.pos false)).1) :=
  ⟨⟨List.Pairwise.nil, by simp [memoInit]⟩, by decide,
    C4_get_requests_session_memoization memoInit (CallKey.pos false)
      (CallKey.pos true) ⟨List.Pairwise.nil, by simp [memoInit]⟩ (by decide)⟩

/-- **C7.** Whatever the wrapped body does — finish or raise — as long as it
leaves the monkey-patched cache installed, the exit path of
`install_requests_cache` prunes every cache entry older than 3 hours
(10800 seconds), deactivates the global cache, and hands the body's own
outcome through unchanged. -/
theorem C7_install_requests_cache_cleanup (version : String)
    (body : HttpCacheState → Except String Unit × HttpCacheState)
    (s0 : HttpCacheState)
    (hinst : (body (install_requests_cache_enter version s0)).2.installed
      = true) :
    (install_requests_cache version body s0).2.installed = false ∧
    (∀ a ∈ (install_requests_cache version body s0).2.entries, a ≤ 10800) ∧
    (install_requests_cache version body s0).1
      = (body (install_requests_cache_enter version s0)).1 := by
  refine ⟨?_, ?_, ?_⟩
  · simp [install_requests_cache, install_requests_cache_exit,
      requests_cache_get_cache, hinst]
  · intro a ha
    simp [install_requests_cache, install_requests_cache_exit,
      requests_cache_get_cache, hinst, cache_delete_older_than,
      List.mem_filter] at ha
    omega
  · simp [install_requests_cache, install_requests_cache_exit,
      requests_cache_get_cache, hinst]

/-- **C7 witness.** The theorem applied to a failing body that also adds a
fresh stale entry: the state afterwards is uninstalled, the 20000-second-old
and 99999-second-old entries are gone, and the body's error is handed
through. -/
theorem C7_install_requests_cache_cleanup_witness :
    ((fun s : HttpCacheState =>
        ((Except.error "boom" : Except String Unit),
          { s with entries := s.entries ++ [99999] }))
      (install_requests_cache_enter "1.0"
        ⟨false, [20000, 100], []⟩)).2.installed = true ∧
    ((install_requests_cache "1.0"
        (fun s : HttpCacheState =>
          ((Except.error "boom" : Except String Unit),
            { s with entries := s.entries ++ [99999] }))
        ⟨false, [20000, 100], []⟩).2.installed = false ∧
      (∀ a ∈ (install_requests_cache "1.0"
          (fun s : HttpCacheState =>
            ((Except.error "boom" : Except String Unit),
              { s with entries := s.entries ++ [99999] }))
          ⟨false, [20000, 100], []⟩).2.entries, a ≤ 10800) ∧
      (install_requests_cache "1.0"
          (fun s : HttpCacheState =>
            ((Except.error "boom" : Except String Unit),
              { s with entries := s.entries ++ [99999] }))
          ⟨false, [20000, 100], []⟩).1
        = ((fun s : HttpCacheState =>
            ((Except.error "boom" : Except String Unit),
              { s with entries := s.entries ++ [99999] }))
          (install_requests_cache_enter "1.0"
            ⟨false, [20000, 100], []⟩)).1) :=
  ⟨rfl, C7_install_requests_cache_cleanup "1.0" _ _ rfl⟩

/-- **C9.** On activation, every file of the cache directory that matches
the `http_cache` naming pattern but is not the current cache file — in
particular every matching file that does not embed the current library
version — is deleted, so afterwards the current cache file is the only
matching file that can remain. -/
theorem C9_install_requests_cache_version_cleanup (version : String)
    (s0 : HttpCacheState) (f : String)
    (hpre : pyStartswith "http_cache" f = true) :
    (f ∈ (install_requests_cache_enter version s0).files →
      f = http_cache_file version) ∧
    (¬ version.data <:+: f.data →
      f ∉ (install_requests_cache_enter version s0).files) := by
  have hmain : f ∈ (install_requests_cache_enter version s0).files →
      f = http_cache_file version := by
    intro hmem
    simp only [install_requests_cache_enter, List.mem_filter] at hmem
    have hp := hmem.2
    simp only [hpre, Bool.true_and, Bool.not_eq_true',
      bne_eq_false_iff_eq] at hp
    exact hp
  refine ⟨hmain, fun hninf hmem => ?_⟩
  have hf := hmain hmem
  subst hf
  exact hninf (version_data_within_http_cache_file version)

/-- **C9 witness.** The theorem applied to a directory holding the stale
file `http_cache_0.9.sqlite` while version `1.0` is current. -/
theorem C9_install_requests_cache_version_cleanup_witness :
    pyStartswith "http_cache" "http_cache_0.9.sqlite" = true ∧
    (("http_cache_0.9.sqlite" : String)
        ∈ (install_requests_cache_enter "1.0"
          ⟨false, [], ["http_cache_0.9.sqlite"]⟩).files →
      ("http_cache_0.9.sqlite" : String) = http_cache_file "1.0") ∧
    (¬ ("1.0" : String).data <:+: ("http_cache_0.9.sqlite" : String).data →
      ("http_cache_0.9.sqlite" : String)
        ∉ (install_requests_cache_enter "1.0"
          ⟨false, [], ["http_cache_0.9.sqlite"]⟩).files) :=
  ⟨by decide,
    (C9_install_requests_cache_version_cleanup "1.0"
      ⟨false, [], ["http_cache_0.9.sqlite"]⟩ "http_cache_0.9.sqlite"
      (by decide)).1,
    (C9_install_requests_cache_version_cleanup "1.0"
      ⟨false, [], ["http_cache_0.9.sqlite"]⟩ "http_cache_0.9.sqlite"
      (by decide)).2⟩

end Msys2Autobuild
